import Mathlib

/-!
PostgreSQL FYI service (`server.js`)

A shallow embedding of the class `PostgreSQLFYIService`: the connection table
`this.connections` (a JavaScript `Map`), the SSL policy `determineSSLConfig`, the id
generator `generateConnectionId`, the request handlers `/connect`, `/query`,
`/schema/:connectionId`, `/disconnect`, the callback of `startCleanupInterval`
and the `shutdown` closure of `setupGracefulShutdown`.

Conventions of the embedding.

* Request fields that the handlers read as strings are `Option String`: `none` is an
  absent field (`undefined`), `some s` a string.  Other JSON shapes are outside the model.
* Timestamps (`Date.now()`, `new Date()`) are integers (milliseconds); every clock
  reading a handler performs and that reaches the state is an explicit argument.
* A `Pool` object is a natural number handle.  `new Pool(...)` hands out the value of
  the counter `pools` and increments it, which gives object identity.
* `pool.end()` is recorded in the trace `ended` together with its outcome (`true` when
  the returned promise resolves, `false` when it rejects); `pool.connect()`,
  `client.query()` and `pool.query()` appear as boolean outcomes supplied by the caller.
* Handlers run one after another: the `await` points of a handler are not interleaved
  with other handlers.
* Log calls and the HTTP listener are left out, they do not touch the table.
-/

namespace PostgreSQLFYI

/-! ## JavaScript primitives -/

/-- Truthiness of an optional string: `undefined` and the empty string are falsy. -/
def truthy : Option String → Bool
  | none => false
  | some s => s != ""

/-- The method `String.prototype.startsWith(p)`. -/
def startsWith (s p : String) : Bool :=
  p.data.isPrefixOf s.data

/-- The method `String.prototype.substr(start, length)`, on the characters of `s`. -/
def substr (s : String) (start length : Nat) : String :=
  String.mk ((s.data.drop start).take length)

/-! ## SSL policy -/

/-- The value handed to the pool as `ssl`: either `false` or an options object. -/
inductive SSLConfig where
  | off
  | options (rejectUnauthorized : Bool) (sslmode : String)
  deriving DecidableEq, Repr

/-- Exceptions a handler body can raise. -/
inductive JSError where
  | typeError
  | rejected
  deriving DecidableEq, Repr

/-- The method `determineSSLConfig(host, sslMode)`.  With `sslMode === 'auto'` an absent
host passes the two `===` tests as `false` and then `host.startsWith` raises. -/
def determineSSLConfig (host sslMode : Option String) : Except JSError SSLConfig :=
  if sslMode = some "auto" then
    match host with
    | none => Except.error JSError.typeError
    | some h =>
      let isLocalhost := h == "localhost" || h == "127.0.0.1" ||
        startsWith h "192.168" || startsWith h "10."
      Except.ok (if isLocalhost then SSLConfig.off else SSLConfig.options false "require")
  else if sslMode = some "require" then
    Except.ok (SSLConfig.options false "require")
  else if sslMode = some "prefer" then
    Except.ok (SSLConfig.options false "prefer")
  else if sslMode = some "disable" then
    Except.ok SSLConfig.off
  else
    Except.ok SSLConfig.off

/-- The host string `a.b.c.d` of a dotted quad. -/
def dottedQuad (a b c d : Nat) : String :=
  toString a ++ "." ++ toString b ++ "." ++ toString c ++ "." ++ toString d

/-! ## Connection ids -/

/-- The method `generateConnectionId()`: `now` is `Date.now()` and `random` is the string
`Math.random().toString(36)`, of which `substr(2, 9)` is kept. -/
def generateConnectionId (now : Int) (random : String) : String :=
  "conn_" ++ toString now ++ "_" ++ substr random 2 9

/-! ## The connection table -/

/-- The object stored as `config` in a record; the fields are the request values. -/
structure ConnConfig where
  host : Option String
  port : Option Nat
  database : Option String
  username : Option String
  deriving DecidableEq, Repr

/-- A record of the table: `{ pool, config, createdAt, lastUsed }`. -/
structure Connection where
  pool : Nat
  config : ConnConfig
  createdAt : Int
  lastUsed : Int
  deriving DecidableEq, Repr

/-- A JavaScript `Map` from ids to records, as its entries in insertion order. -/
abbrev ConnMap := List (String × Connection)

namespace ConnMap

/-- The keys of a map, in insertion order. -/
def keys (m : ConnMap) : List String :=
  m.map Prod.fst

/-- A well-formed map holds every key once. -/
def WF (m : ConnMap) : Prop :=
  (keys m).Nodup

/-- The method `Map.prototype.has`. -/
def has (m : ConnMap) (k : String) : Bool :=
  m.any (fun e => e.1 == k)

/-- The method `Map.prototype.get`; `none` is `undefined`. -/
def get : ConnMap → String → Option Connection
  | [], _ => none
  | e :: m, k => if e.1 = k then some e.2 else get m k

/-- The method `Map.prototype.set`: an existing key keeps its place and takes the new
value, a new key is appended. -/
def set (m : ConnMap) (k : String) (v : Connection) : ConnMap :=
  if has m k then m.map (fun e => if e.1 = k then (k, v) else e) else m ++ [(k, v)]

/-- The method `Map.prototype.delete`. -/
def delete (m : ConnMap) (k : String) : ConnMap :=
  m.filter (fun e => e.1 != k)

/-- The method `Map.prototype.clear`. -/
def clear (_m : ConnMap) : ConnMap :=
  []

end ConnMap

/-- The state of the service: the table, the trace of `pool.end()` calls (handle and
whether the close succeeded) and the number of pools constructed so far. -/
structure Service where
  connections : ConnMap
  ended : List (Nat × Bool)
  pools : Nat

/-- The service right after construction. -/
def Service.init : Service :=
  { connections := [], ended := [], pools := 0 }

/-- How often `pool.end()` has been invoked on the pool `p`. -/
def Service.endCount (s : Service) (p : Nat) : Nat :=
  (s.ended.filter (fun e => e.1 == p)).length

/-! ## Responses -/

/-- The JSON response of a handler: HTTP status, the `error` field and, for `/connect`,
the `connectionId` field.  Result rows come from the database and are left out. -/
structure Response where
  status : Nat
  error : Option String
  connectionId : Option String
  deriving DecidableEq, Repr

/-- A success response (`res.json` with `success: true`, status 200). -/
def Response.ok (connectionId : Option String) : Response :=
  { status := 200, error := none, connectionId := connectionId }

/-- A failure response (`success: false`). -/
def Response.fail (status : Nat) (error : String) : Response :=
  { status := status, error := some error, connectionId := none }

/-- The 400 response of `/connect`: the kind `ValidationError`. -/
def missingConnectParams : Response :=
  Response.fail 400 "Missing required connection parameters: host, database, username, password"

/-- The 400 response of `/query`. -/
def missingQueryParams : Response :=
  Response.fail 400 "Missing connectionId or sql"

/-- The 404 response shared by `/query`, `/schema` and `/disconnect`: `NotFoundError`. -/
def connectionNotFound : Response :=
  Response.fail 404 "Connection not found"

/-- The 500 response of `/connect`: the kind `ConnectError`. -/
def connectionFailed : Response :=
  Response.fail 500 "Connection failed"

/-- The 500 response of `/query`: the kind `UpstreamError`. -/
def queryFailed : Response :=
  Response.fail 500 "Query execution failed"

/-- The 500 response of `/schema`: the kind `UpstreamError`. -/
def schemaFailed : Response :=
  Response.fail 500 "Failed to fetch schema"

/-- The 500 response of `/disconnect`: the kind `CloseError`. -/
def disconnectFailed : Response :=
  Response.fail 500 "Disconnect failed"

/-! ## Handlers -/

/-- The body of a `/connect` request. -/
structure ConnectBody where
  host : Option String
  port : Option Nat
  database : Option String
  username : Option String
  password : Option String
  sslMode : Option String
  deriving DecidableEq, Repr

/-- What the environment feeds one run of the `/connect` handler: the clock and random
value read by `generateConnectionId`, the outcomes of `pool.connect()` and of the
validation query, and the two `new Date()` readings of the record. -/
structure ConnectEnv where
  now : Int
  random : String
  handshakeOk : Bool
  validationOk : Bool
  createdAt : Int
  lastUsed : Int
  deriving DecidableEq, Repr

/-- The record `/connect` stores for a body, a pool and the two clock readings. -/
def newRecord (body : ConnectBody) (pool : Nat) (env : ConnectEnv) : Connection :=
  { pool := pool
    config := { host := body.host, port := body.port, database := body.database,
                username := body.username }
    createdAt := env.createdAt
    lastUsed := env.lastUsed }

/-- The handler `POST /connect`. -/
def connect (s : Service) (body : ConnectBody) (env : ConnectEnv) : Service × Response :=
  if !truthy body.host || !truthy body.database || !truthy body.username ||
      !truthy body.password then
    (s, missingConnectParams)
  else
    let connectionId := generateConnectionId env.now env.random
    match determineSSLConfig body.host body.sslMode with
    | Except.error _ => (s, connectionFailed)
    | Except.ok _ =>
      let pool := s.pools
      let s1 := { s with pools := s.pools + 1 }
      if !env.handshakeOk then (s1, connectionFailed)
      else if !env.validationOk then (s1, connectionFailed)
      else
        ({ s1 with connections := s1.connections.set connectionId (newRecord body pool env) },
          Response.ok (some connectionId))

/-- The handler `POST /query`: `queryOk` is the outcome of `pool.query(sql)` and `now`
the `new Date()` stored as `lastUsed`. -/
def query (s : Service) (connectionId sql : Option String) (queryOk : Bool) (now : Int) :
    Service × Response :=
  if !truthy connectionId || !truthy sql then
    (s, missingQueryParams)
  else
    match connectionId with
    | none => (s, connectionNotFound)
    | some id =>
      match s.connections.get id with
      | none => (s, connectionNotFound)
      | some connection =>
        if !queryOk then (s, queryFailed)
        else
          ({ s with connections := s.connections.set id { connection with lastUsed := now } },
            Response.ok none)

/-- The handler `GET /schema/:connectionId`; it leaves the state alone. -/
def schema (s : Service) (connectionId : String) (queryOk : Bool) : Response :=
  match s.connections.get connectionId with
  | none => connectionNotFound
  | some _ => if !queryOk then schemaFailed else Response.ok none

/-- The handler `POST /disconnect`: `endOk` is the outcome of `await pool.end()`; a
rejection jumps to the `catch` block, past `this.connections.delete`. -/
def disconnect (s : Service) (connectionId : Option String) (endOk : Bool) :
    Service × Response :=
  match connectionId with
  | none => (s, connectionNotFound)
  | some id =>
    match s.connections.get id with
    | none => (s, connectionNotFound)
    | some connection =>
      let s1 := { s with ended := s.ended ++ [(connection.pool, endOk)] }
      if !endOk then (s1, disconnectFailed)
      else ({ s1 with connections := s1.connections.delete id }, Response.ok none)

/-- The handler `GET /connections`: id, descriptor and timestamps of every record. -/
def list (s : Service) : List (String × ConnConfig × Int × Int) :=
  s.connections.map (fun e => (e.1, e.2.config, e.2.createdAt, e.2.lastUsed))

/-- The body of the `for` loop in the callback of `startCleanupInterval`. -/
def cleanupStep (now maxAge : Int) (endOk : Nat → Bool) (s : Service)
    (e : String × Connection) : Service :=
  if now - e.2.lastUsed > maxAge then
    { s with
      ended := s.ended ++ [(e.2.pool, endOk e.2.pool)]
      connections := s.connections.delete e.1 }
  else s

/-- One run of the callback of `startCleanupInterval`.  The loop walks the entries of
the map; the body deletes at most the entry it is visiting, so the entries visited are
those present when the loop starts. -/
def cleanupTick (s : Service) (now maxAge : Int) (endOk : Nat → Bool) : Service :=
  s.connections.foldl (cleanupStep now maxAge endOk) s

/-- The body of the `for` loop of `shutdown`: `await pool.end()` inside `try`/`catch`. -/
def shutdownStep (endOk : Nat → Bool) (s : Service) (e : String × Connection) : Service :=
  { s with ended := s.ended ++ [(e.2.pool, endOk e.2.pool)] }

/-- The drain of the `shutdown` closure: the loop over the table, then `clear()`. -/
def shutdown (s : Service) (endOk : Nat → Bool) : Service :=
  let s1 := s.connections.foldl (shutdownStep endOk) s
  { s1 with connections := s1.connections.clear }

/-! ## Sequences of operations -/

/-- One operation on the service together with what the environment feeds it. -/
inductive Op where
  | connect (body : ConnectBody) (env : ConnectEnv)
  | query (connectionId sql : Option String) (queryOk : Bool) (now : Int)
  | disconnect (connectionId : Option String) (endOk : Bool)
  | cleanupTick (now maxAge : Int) (endOk : Nat → Bool)
  | shutdown (endOk : Nat → Bool)

/-- The state after one operation. -/
def step (s : Service) : Op → Service
  | Op.connect body env => (connect s body env).1
  | Op.query connectionId sql queryOk now => (query s connectionId sql queryOk now).1
  | Op.disconnect connectionId endOk => (disconnect s connectionId endOk).1
  | Op.cleanupTick now maxAge endOk => cleanupTick s now maxAge endOk
  | Op.shutdown endOk => shutdown s endOk

/-- The state after a sequence of operations. -/
def run (s : Service) (ops : List Op) : Service :=
  ops.foldl step s

/-- The clock readings an operation stores or compares, in the order it takes them. -/
def Op.readings : Op → List Int
  | Op.connect _ env => [env.now, env.createdAt, env.lastUsed]
  | Op.query _ _ _ now => [now]
  | Op.disconnect _ _ => []
  | Op.cleanupTick now _ _ => [now]
  | Op.shutdown _ => []

/-- The clock readings of a sequence of operations, in order. -/
def readings : List Op → List Int
  | [] => []
  | op :: ops => op.readings ++ readings ops

/-- Successive clock readings never decrease. -/
def ClockMonotone (ops : List Op) : Prop :=
  (readings ops).Pairwise (fun a b => a ≤ b)


/-! ## Sample inputs -/

/-- A complete `/connect` body for a local database. -/
def sampleBody : ConnectBody :=
  { host := some "localhost", port := some 5432, database := some "testdb",
    username := some "u", password := some "p", sslMode := some "auto" }

/-- An environment in which the handshake and the validation query succeed at time
`t`, with the random string `0.abcdefghijk`. -/
def sampleEnv (t : Int) : ConnectEnv :=
  { now := t, random := "0.abcdefghijk", handshakeOk := true, validationOk := true,
    createdAt := t, lastUsed := t }

/-- The service after two successful connects, at times 50 and 95. -/
def sampleService : Service :=
  run Service.init [Op.connect sampleBody (sampleEnv 50), Op.connect sampleBody (sampleEnv 95)]

/-! ## Invariant of the reachable states -/

/-- What holds of the service after operations whose clock readings were `rs`: the
table is well formed, every record owns a pool already constructed, was created no later
than it was last used, and was last used at one of the readings. -/
def Inv (rs : List Int) (s : Service) : Prop :=
  s.connections.WF ∧
    ∀ e ∈ s.connections, e.2.pool < s.pools ∧ e.2.createdAt ≤ e.2.lastUsed ∧ e.2.lastUsed ∈ rs

/-! ## Invariant of closing -/

/-- The pools owned by the records of a table, in table order. -/
def ConnMap.poolsOf (m : ConnMap) : List Nat :=
  m.map (fun e => e.2.pool)

/-- The pools on which `pool.end()` has been invoked, in order of invocation. -/
def Service.endedPools (s : Service) : List Nat :=
  s.ended.map Prod.fst

/-- An operation other than a disconnect whose close fails. -/
def Op.cleanClose : Op → Bool
  | Op.disconnect _ endOk => endOk
  | _ => true

/-- What holds of the service as long as no disconnect met a failing close: records own
distinct pools already constructed, no pool was ended twice, and no ended pool is still
owned by a record. -/
def PoolInv (s : Service) : Prop :=
  s.connections.WF ∧ s.connections.poolsOf.Nodup ∧
    (∀ p ∈ s.connections.poolsOf, p < s.pools) ∧
    s.endedPools.Nodup ∧
    ∀ p ∈ s.endedPools, p < s.pools ∧ p ∉ s.connections.poolsOf

/-! ## Operations that create or keep an id -/

/-- A connect whose generated id is `id`. -/
def Op.generates (id : String) : Op → Bool
  | Op.connect _ env => generateConnectionId env.now env.random == id
  | _ => false

/-- An operation that removes no record: a connect or a query. -/
def Op.removesNothing : Op → Bool
  | Op.connect _ _ => true
  | Op.query _ _ _ _ => true
  | _ => false

/-! ## SSL policy: properties -/

/-- The decision of mode `auto` as the code takes it: loopback names and the prefixes
`192.168` and `10.` switch transport security off. -/
theorem determineSSLConfig_auto (h : String) :
    determineSSLConfig (some h) (some "auto") =
      Except.ok (if h = "localhost" ∨ h = "127.0.0.1" ∨ startsWith h "192.168" = true ∨
          startsWith h "10." = true
        then SSLConfig.off else SSLConfig.options false "require") := by
  simp [determineSSLConfig, or_assoc]

/-- A host whose first four characters are `172.` is public for mode `auto`. -/
theorem determineSSLConfig_auto_172 (h : String) (rest : List Char)
    (hd : h.data = '1' :: '7' :: '2' :: '.' :: rest) :
    determineSSLConfig (some h) (some "auto") =
      Except.ok (SSLConfig.options false "require") := by
  have h1 : h ≠ "localhost" := by
    intro e
    rw [e] at hd
    simp at hd
  have h2 : h ≠ "127.0.0.1" := by
    intro e
    rw [e] at hd
    simp at hd
  have h3 : startsWith h "192.168" = false := by
    simp [startsWith, hd, List.isPrefixOf]
  have h4 : startsWith h "10." = false := by
    simp [startsWith, hd, List.isPrefixOf]
  rw [determineSSLConfig_auto]
  simp [h1, h2, h3, h4]

/-- The characters of a dotted quad whose first octet is 172. -/
theorem dottedQuad_172_data (b c d : Nat) :
    ∃ rest, (dottedQuad 172 b c d).data = '1' :: '7' :: '2' :: '.' :: rest := by
  refine ⟨(toString b).data ++ ("." : String).data ++ (toString c).data ++
    ("." : String).data ++ (toString d).data, ?_⟩
  have e : (toString (172 : Nat)).data = ['1', '7', '2'] := by decide
  simp [dottedQuad, String.data_append, e]

/-- C8: at the host `192.168example.com`, which is neither loopback nor begins with `10.`
or `192.168.`, mode `auto` switches transport security off: the code tests the prefix
`192.168` without the closing dot. -/
theorem determineSSLConfig_auto_prefix_missing_dot :
    determineSSLConfig (some "192.168example.com") (some "auto") = Except.ok SSLConfig.off ∧
      "192.168example.com" ≠ "localhost" ∧ "192.168example.com" ≠ "127.0.0.1" ∧
      startsWith "192.168example.com" "10." = false ∧
      startsWith "192.168example.com" "192.168." = false :=
  ⟨rfl, by decide, by decide, by decide, by decide⟩

/-- C9: outside mode `auto` the decision depends on the mode alone: for every host,
present or absent, `require` and `prefer` give the options object with certificate
validation off and the matching `sslmode`, and `disable`, an absent mode and every other
mode value give `false`. -/
theorem determineSSLConfig_mode_only (host : Option String) :
    determineSSLConfig host (some "require") = Except.ok (SSLConfig.options false "require") ∧
    determineSSLConfig host (some "prefer") = Except.ok (SSLConfig.options false "prefer") ∧
    determineSSLConfig host (some "disable") = Except.ok SSLConfig.off ∧
    determineSSLConfig host none = Except.ok SSLConfig.off ∧
    ∀ mode : String, mode ≠ "auto" → mode ≠ "require" → mode ≠ "prefer" →
      determineSSLConfig host (some mode) = Except.ok SSLConfig.off := by
  refine ⟨?_, ?_, ?_, ?_, ?_⟩
  · simp [determineSSLConfig]
  · simp [determineSSLConfig]
  · simp [determineSSLConfig]
  · simp [determineSSLConfig]
  · intro mode h1 h2 h3
    simp [determineSSLConfig, h1, h2, h3]

/-- Witness of C9 at an absent host and the mode value `verify-full`. -/
theorem determineSSLConfig_mode_only_witness :
    determineSSLConfig none (some "verify-full") = Except.ok SSLConfig.off :=
  (determineSSLConfig_mode_only none).2.2.2.2 "verify-full" (by decide) (by decide) (by decide)

/-- C10: every dotted quad `172.b.c.d` with `16 ≤ b ≤ 31` is public for mode `auto`:
transport security required, certificate validation off. -/
theorem determineSSLConfig_auto_172_range (b c d : Nat) (_hlo : 16 ≤ b) (_hhi : b ≤ 31) :
    determineSSLConfig (some (dottedQuad 172 b c d)) (some "auto") =
      Except.ok (SSLConfig.options false "require") := by
  obtain ⟨rest, hrest⟩ := dottedQuad_172_data b c d
  exact determineSSLConfig_auto_172 _ rest hrest

/-- Witness of C10 at the host `172.16.0.1`. -/
theorem determineSSLConfig_auto_172_range_witness :
    dottedQuad 172 16 0 1 = "172.16.0.1" ∧
      determineSSLConfig (some "172.16.0.1") (some "auto") =
        Except.ok (SSLConfig.options false "require") :=
  ⟨by decide, determineSSLConfig_auto_172_range 16 0 1 (by decide) (by decide)⟩


/-! ## The connection table: lemmas -/

namespace ConnMap

theorem has_eq_true_iff (m : ConnMap) (k : String) :
    has m k = true ↔ k ∈ keys m := by
  simp only [has, keys, List.any_eq_true, List.mem_map, beq_iff_eq]

theorem get_eq_none_iff (m : ConnMap) (k : String) :
    get m k = none ↔ k ∉ keys m := by
  induction m with
  | nil => simp [get, keys]
  | cons e m ih =>
    by_cases h : e.1 = k
    · simp [get, keys, h]
    · have h2 : ¬ k = e.1 := fun e1 => h e1.symm
      simp only [get, h, if_false, ih, keys, List.map_cons, List.mem_cons, h2, false_or]

theorem mem_of_get (m : ConnMap) (k : String) (r : Connection) (h : get m k = some r) :
    (k, r) ∈ m := by
  induction m with
  | nil => simp [get] at h
  | cons e m ih =>
    by_cases hk : e.1 = k
    · simp only [get, hk, if_true, Option.some.injEq] at h
      exact List.mem_cons.2 (Or.inl (Prod.ext hk.symm h.symm))
    · simp only [get, hk, if_false] at h
      exact List.mem_cons_of_mem _ (ih h)

theorem get_of_mem (m : ConnMap) (hm : WF m) (k : String) (r : Connection)
    (h : (k, r) ∈ m) : get m k = some r := by
  induction m with
  | nil => simp at h
  | cons e m ih =>
    have hnd : e.1 ∉ keys m ∧ (keys m).Nodup := by
      simpa [WF, keys] using hm
    rcases List.mem_cons.1 h with h | h
    · subst h
      simp [get]
    · have hk : e.1 ≠ k := by
        intro e1
        apply hnd.1
        rw [e1]
        exact List.mem_map_of_mem Prod.fst h
      simp only [get, hk, if_false]
      exact ih hnd.2 h

theorem get_set (m : ConnMap) (k : String) (v : Connection) (k' : String) :
    get (set m k v) k' = if k = k' then some v else get m k' := by
  unfold set
  by_cases hh : has m k = true
  · rw [if_pos hh]
    induction m with
    | nil => simp [has] at hh
    | cons e m ih =>
      by_cases he : e.1 = k
      · by_cases hk : k = k'
        · simp [get, he, hk]
        · have hk2 : ¬ e.1 = k' := by rw [he]; exact hk
          simp only [List.map_cons, get, he, if_true, hk, if_false, hk2]
          by_cases hm : has m k = true
          · simpa [hk] using ih hm
          · have hnot : ∀ x ∈ m, ¬ x.1 = k := by
              intro x hx hxk
              apply hm
              rw [has_eq_true_iff]
              exact hxk ▸ List.mem_map_of_mem Prod.fst hx
            have hmap : m.map (fun e => if e.1 = k then (k, v) else e) = m := by
              conv_rhs => rw [← List.map_id m]
              apply List.map_congr_left
              intro x hx
              simp [hnot x hx]
            rw [hmap]
      · have hm : has m k = true := by
          simpa [has, he] using hh
        have := ih hm
        by_cases hk : k = k'
        · have hk2 : ¬ e.1 = k' := by rw [← hk]; exact he
          simp only [List.map_cons, get, he, if_false, hk2]
          simpa using this
        · simp only [List.map_cons, get, he, if_false]
          rw [this]
          simp [hk]
  · rw [if_neg hh]
    have hnone : get m k = none := by
      rw [get_eq_none_iff, ← has_eq_true_iff]
      exact hh
    clear hh
    induction m with
    | nil =>
      by_cases hk : k = k' <;> simp [get, hk]
    | cons e m ih =>
      by_cases he : e.1 = k
      · simp [get, he] at hnone
      · simp only [get, he, if_false] at hnone
        have := ih hnone
        by_cases hk' : e.1 = k'
        · have hk : ¬ k = k' := by rw [← hk']; exact fun h => he h.symm
          simp [get, hk', hk]
        · simp only [List.cons_append, get, hk', if_false]
          exact this

theorem get_delete (m : ConnMap) (k k' : String) :
    get (delete m k) k' = if k = k' then none else get m k' := by
  unfold delete
  induction m with
  | nil => simp [get]
  | cons e m ih =>
    by_cases he : e.1 = k
    · by_cases hk : k = k'
      · simpa [List.filter_cons, he, hk] using ih
      · have hk2 : ¬ e.1 = k' := by rw [he]; exact hk
        simpa [List.filter_cons, he, hk, get, hk2] using ih
    · by_cases hk' : e.1 = k'
      · have hk : ¬ k = k' := by rw [← hk']; exact fun h => he h.symm
        have hb : (e.1 != k) = true := by simpa using he
        simp only [List.filter_cons, hb, if_true]
        simp only [get, hk', if_true, hk, if_false]
      · have hb : (e.1 != k) = true := by simpa using he
        simp only [List.filter_cons, hb, if_true]
        simp only [get, hk', if_false]
        exact ih

theorem keys_set (m : ConnMap) (k : String) (v : Connection) :
    keys (set m k v) = if has m k then keys m else keys m ++ [k] := by
  unfold set
  by_cases hh : has m k = true
  · simp only [hh, if_true, keys, List.map_map]
    apply List.map_congr_left
    intro x _
    by_cases hx : x.1 = k <;> simp [hx]
  · simp [hh, keys]

theorem wf_set (m : ConnMap) (hm : WF m) (k : String) (v : Connection) :
    WF (set m k v) := by
  unfold WF
  rw [keys_set]
  by_cases hh : has m k = true
  · simpa [hh] using hm
  · have hk : k ∉ keys m := by
      rw [← has_eq_true_iff]
      exact hh
    simp only [hh, Bool.false_eq_true, if_false]
    rw [List.nodup_append]
    refine ⟨hm, List.nodup_singleton k, ?_⟩
    intro a ha hb
    rw [List.mem_singleton] at hb
    exact hk (hb ▸ ha)

theorem wf_filter (m : ConnMap) (hm : WF m) (p : String × Connection → Bool) :
    WF (m.filter p) := by
  unfold WF keys at *
  exact List.Nodup.sublist (List.Sublist.map _ (List.filter_sublist m)) hm

theorem wf_delete (m : ConnMap) (hm : WF m) (k : String) : WF (delete m k) :=
  wf_filter m hm _


theorem eq_of_mem_of_fst_eq (m : ConnMap) (hm : WF m) (x e : String × Connection)
    (hx : x ∈ m) (he : e ∈ m) (hk : x.1 = e.1) : x = e := by
  have h1 : get m x.1 = some x.2 := get_of_mem m hm x.1 x.2 hx
  have h2 : get m e.1 = some e.2 := get_of_mem m hm e.1 e.2 he
  rw [hk, h2] at h1
  exact Prod.ext hk (Option.some.inj h1).symm

theorem get_filter_of_pos (m : ConnMap) (hm : WF m) (p : String × Connection → Bool)
    (k : String) (r : Connection) (hg : get m k = some r) (hp : p (k, r) = true) :
    get (m.filter p) k = some r :=
  get_of_mem _ (wf_filter m hm p) k r (List.mem_filter.2 ⟨mem_of_get m k r hg, hp⟩)

theorem get_filter_of_neg (m : ConnMap) (hm : WF m) (p : String × Connection → Bool)
    (k : String) (r : Connection) (hg : get m k = some r) (hp : p (k, r) = false) :
    get (m.filter p) k = none := by
  cases hf : get (m.filter p) k with
  | none => rfl
  | some r' =>
    have hmem := List.mem_filter.1 (mem_of_get _ k r' hf)
    have hr : get m k = some r' := get_of_mem m hm k r' hmem.1
    rw [hg] at hr
    have hrr : r = r' := Option.some.inj hr
    rw [← hrr, hp] at hmem
    exact absurd hmem.2 (by simp)

end ConnMap

/-! ## Idle reaper -/

/-- The loop of the reaper over any list of entries: the table loses the keys of the
expired entries visited, and each of them gets one `pool.end()`. -/
theorem cleanupFold (now maxAge : Int) (endOk : Nat → Bool)
    (l : List (String × Connection)) (s : Service) :
    (l.foldl (cleanupStep now maxAge endOk) s).connections =
        s.connections.filter (fun e =>
          !(l.any (fun x => x.1 == e.1 && decide (now - x.2.lastUsed > maxAge)))) ∧
      (l.foldl (cleanupStep now maxAge endOk) s).ended =
        s.ended ++ (l.filter (fun x => decide (now - x.2.lastUsed > maxAge))).map
          (fun x => (x.2.pool, endOk x.2.pool)) ∧
      (l.foldl (cleanupStep now maxAge endOk) s).pools = s.pools := by
  induction l generalizing s with
  | nil => simp
  | cons x l ih =>
    rw [List.foldl_cons]
    obtain ⟨ih1, ih2, ih3⟩ := ih (cleanupStep now maxAge endOk s x)
    rw [ih1, ih2, ih3]
    by_cases hx : now - x.2.lastUsed > maxAge
    · refine ⟨?_, ?_, ?_⟩
      · simp only [cleanupStep, hx, if_true, ConnMap.delete, List.filter_filter]
        apply List.filter_congr
        intro e _
        by_cases hk : x.1 = e.1
        · have hk2 : ¬ e.1 ≠ x.1 := fun h => h hk.symm
          simp [hk, hx]
        · have hk2 : e.1 ≠ x.1 := fun h => hk h.symm
          have hb1 : (x.1 == e.1) = false := by simpa using hk
          have hb2 : (e.1 != x.1) = true := by simpa using hk2
          simp [hb1, hb2]
      · simp [cleanupStep, hx]
      · simp [cleanupStep, hx]
    · refine ⟨?_, ?_, ?_⟩
      · simp only [cleanupStep, hx, if_false]
        apply List.filter_congr
        intro e _
        simp [hx]
      · simp [cleanupStep, hx]
      · simp [cleanupStep, hx]

/-- On a well-formed table one reaper tick keeps exactly the entries that are not expired. -/
theorem cleanupTick_connections (s : Service) (hwf : s.connections.WF) (now maxAge : Int)
    (endOk : Nat → Bool) :
    (cleanupTick s now maxAge endOk).connections =
      s.connections.filter (fun e => decide (now - e.2.lastUsed ≤ maxAge)) := by
  unfold cleanupTick
  rw [(cleanupFold now maxAge endOk s.connections s).1]
  apply List.filter_congr
  intro e he
  by_cases hx : now - e.2.lastUsed > maxAge
  · have h1 : (s.connections.any
        (fun x => x.1 == e.1 && decide (now - x.2.lastUsed > maxAge))) = true := by
      rw [List.any_eq_true]
      exact ⟨e, he, by simp [hx]⟩
    have h2 : ¬ now - e.2.lastUsed ≤ maxAge := not_le.2 hx
    simp [h1, h2]
  · have h1 : (s.connections.any
        (fun x => x.1 == e.1 && decide (now - x.2.lastUsed > maxAge))) = false := by
      rw [Bool.eq_false_iff]
      intro hany
      rw [List.any_eq_true] at hany
      obtain ⟨x, hxm, hxp⟩ := hany
      simp only [Bool.and_eq_true, beq_iff_eq, decide_eq_true_eq] at hxp
      have hxe : x = e := ConnMap.eq_of_mem_of_fst_eq _ hwf x e hxm he hxp.1
      rw [hxe] at hxp
      exact hx hxp.2
    have h2 : now - e.2.lastUsed ≤ maxAge := not_lt.1 hx
    simp [h1, h2]

/-- C1: one sweep of the reaper on a table (a `Map`, every key once) leaves exactly the
entries with `now - lastUsed ≤ maxAge`, records unchanged: an entry with
`now - lastUsed > maxAge` is gone, an entry with `now - lastUsed ≤ maxAge` is still there
with the same record, whatever the outcome `endOk` of each close. -/
theorem cleanupTick_spec (s : Service) (hwf : s.connections.WF) (now maxAge : Int)
    (endOk : Nat → Bool) :
    (cleanupTick s now maxAge endOk).connections =
        s.connections.filter (fun e => decide (now - e.2.lastUsed ≤ maxAge)) ∧
      (∀ id r, s.connections.get id = some r → now - r.lastUsed > maxAge →
        (cleanupTick s now maxAge endOk).connections.get id = none) ∧
      (∀ id r, s.connections.get id = some r → now - r.lastUsed ≤ maxAge →
        (cleanupTick s now maxAge endOk).connections.get id = some r) ∧
      (∀ id, s.connections.get id = none →
        (cleanupTick s now maxAge endOk).connections.get id = none) := by
  have hc := cleanupTick_connections s hwf now maxAge endOk
  refine ⟨hc, ?_, ?_, ?_⟩
  · intro id r hg hexp
    rw [hc]
    exact ConnMap.get_filter_of_neg _ hwf _ id r hg (decide_eq_false (not_le.2 hexp))
  · intro id r hg hkeep
    rw [hc]
    exact ConnMap.get_filter_of_pos _ hwf _ id r hg (decide_eq_true hkeep)
  · intro id hg
    rw [hc, ConnMap.get_eq_none_iff]
    rw [ConnMap.get_eq_none_iff] at hg
    intro hmem
    apply hg
    simp only [ConnMap.keys, List.mem_map] at hmem ⊢
    obtain ⟨e, he, hek⟩ := hmem
    exact ⟨e, (List.mem_filter.1 he).1, hek⟩

/-! ## Shutdown -/

/-- The loop of `shutdown` over any list of entries. -/
theorem shutdownFold (endOk : Nat → Bool) (l : List (String × Connection)) (s : Service) :
    (l.foldl (shutdownStep endOk) s).connections = s.connections ∧
      (l.foldl (shutdownStep endOk) s).ended =
        s.ended ++ l.map (fun x => (x.2.pool, endOk x.2.pool)) ∧
      (l.foldl (shutdownStep endOk) s).pools = s.pools := by
  induction l generalizing s with
  | nil => simp
  | cons x l ih =>
    rw [List.foldl_cons]
    obtain ⟨ih1, ih2, ih3⟩ := ih (shutdownStep endOk s x)
    rw [ih1, ih2, ih3]
    simp [shutdownStep]

/-- C3: the drain of `shutdown` empties the table and invokes `pool.end()` on the pool of
every entry, in table order, a failing close (`endOk p = false`) not stopping the loop;
a second drain after the first one invokes no further close and leaves the same state. -/
theorem shutdown_spec (s : Service) (endOk endOk2 : Nat → Bool) :
    (shutdown s endOk).connections = [] ∧
      (shutdown s endOk).ended =
        s.ended ++ s.connections.map (fun e => (e.2.pool, endOk e.2.pool)) ∧
      (shutdown (shutdown s endOk) endOk2).connections = [] ∧
      (shutdown (shutdown s endOk) endOk2).ended = (shutdown s endOk).ended ∧
      shutdown (shutdown s endOk) endOk2 = shutdown s endOk := by
  have h2 : (shutdown s endOk).ended =
      s.ended ++ s.connections.map (fun e => (e.2.pool, endOk e.2.pool)) := by
    simp [shutdown, (shutdownFold endOk s.connections s).2.1]
  exact ⟨rfl, h2, rfl, rfl, rfl⟩


/-- Witness of C1: with two records last used at 50 and 95, the tick at 100 with
`maxAge = 10` and every close failing keeps the second record only. -/
theorem cleanupTick_spec_witness :
    sampleService.connections.WF ∧
      (cleanupTick sampleService 100 10 (fun _ => false)).connections =
        [("conn_95_abcdefghi", newRecord sampleBody 1 (sampleEnv 95))] :=
  ⟨by unfold ConnMap.WF; decide,
    (cleanupTick_spec sampleService (by unfold ConnMap.WF; decide) 100 10 (fun _ => false)).1.trans
      (by decide)⟩

/-! ## Connect -/

theorem determineSSLConfig_of_truthy (host sslMode : Option String)
    (hh : truthy host = true) : ∃ c, determineSSLConfig host sslMode = Except.ok c := by
  cases host with
  | none => simp [truthy] at hh
  | some h =>
    unfold determineSSLConfig
    split_ifs <;> exact ⟨_, rfl⟩

/-- The `/connect` handler when a required field is missing. -/
theorem connect_missing (s : Service) (body : ConnectBody) (env : ConnectEnv)
    (h : (truthy body.host && truthy body.database && truthy body.username &&
      truthy body.password) = false) :
    connect s body env = (s, missingConnectParams) := by
  unfold connect
  rw [if_pos]
  revert h
  cases truthy body.host <;> cases truthy body.database <;> cases truthy body.username <;>
    cases truthy body.password <;> simp

/-- The `/connect` handler when all required fields are there. -/
theorem connect_present (s : Service) (body : ConnectBody) (env : ConnectEnv)
    (h : (truthy body.host && truthy body.database && truthy body.username &&
      truthy body.password) = true) :
    connect s body env =
      if (env.handshakeOk && env.validationOk) = true then
        ({ connections := s.connections.set (generateConnectionId env.now env.random)
              (newRecord body s.pools env),
           ended := s.ended, pools := s.pools + 1 },
          Response.ok (some (generateConnectionId env.now env.random)))
      else ({ connections := s.connections, ended := s.ended, pools := s.pools + 1 },
          connectionFailed) := by
  have hh : truthy body.host = true := by
    revert h
    cases truthy body.host <;> simp
  obtain ⟨c, hc⟩ := determineSSLConfig_of_truthy body.host body.sslMode hh
  unfold connect
  rw [if_neg, hc]
  · cases env.handshakeOk <;> cases env.validationOk <;> simp
  · revert h
    cases truthy body.host <;> cases truthy body.database <;> cases truthy body.username <;>
      cases truthy body.password <;> simp

/-- C6: `/connect` stores a record exactly when host, database, username and password
are all given (truthy) and both the handshake and the validation query succeed; the
record then sits under the returned id and carries host, port, database and username
of the request, every other id keeping what it had.  A missing field gives the 400
response, a failed handshake or validation query the 500 response `Connection failed`,
and in both cases the table is unchanged. -/
theorem connect_atomic (s : Service) (body : ConnectBody) (env : ConnectEnv) :
    ((truthy body.host && truthy body.database && truthy body.username &&
        truthy body.password) = false →
      connect s body env = (s, missingConnectParams)) ∧
    ((truthy body.host && truthy body.database && truthy body.username &&
        truthy body.password) = true →
      (env.handshakeOk && env.validationOk) = false →
      (connect s body env).2 = connectionFailed ∧
        (connect s body env).1.connections = s.connections) ∧
    ((truthy body.host && truthy body.database && truthy body.username &&
        truthy body.password) = true →
      (env.handshakeOk && env.validationOk) = true →
      (connect s body env).2 = Response.ok (some (generateConnectionId env.now env.random)) ∧
        (connect s body env).1.connections =
          s.connections.set (generateConnectionId env.now env.random)
            (newRecord body s.pools env) ∧
        (connect s body env).1.connections.get (generateConnectionId env.now env.random) =
          some (newRecord body s.pools env) ∧
        (∀ k, k ≠ generateConnectionId env.now env.random →
          (connect s body env).1.connections.get k = s.connections.get k) ∧
        (newRecord body s.pools env).config =
          { host := body.host, port := body.port, database := body.database,
            username := body.username }) := by
  refine ⟨connect_missing s body env, ?_, ?_⟩
  · intro h hf
    rw [connect_present s body env h, if_neg (by simp [hf])]
    exact ⟨rfl, rfl⟩
  · intro h ht
    rw [connect_present s body env h, if_pos ht]
    refine ⟨rfl, rfl, ?_, ?_, rfl⟩
    · simp [ConnMap.get_set]
    · intro k hk
      have hk2 : ¬ generateConnectionId env.now env.random = k := fun e => hk e.symm
      simp [ConnMap.get_set, hk2]

/-- Witness of C6: a body without password is refused, a failing validation query
leaves the table alone, and the sample connect on the fresh service stores its record. -/
theorem connect_atomic_witness :
    connect Service.init { sampleBody with password := none } (sampleEnv 5) =
        (Service.init, missingConnectParams) ∧
      ((connect Service.init sampleBody { sampleEnv 5 with validationOk := false }).2 =
          connectionFailed ∧
        (connect Service.init sampleBody { sampleEnv 5 with validationOk := false }).1.connections =
          []) ∧
      (connect Service.init sampleBody (sampleEnv 5)).2 = Response.ok (some "conn_5_abcdefghi") :=
  ⟨(connect_atomic Service.init { sampleBody with password := none } (sampleEnv 5)).1 (by decide),
    (connect_atomic Service.init sampleBody { sampleEnv 5 with validationOk := false }).2.1
      (by decide) (by decide),
    ((connect_atomic Service.init sampleBody (sampleEnv 5)).2.2 (by decide) (by decide)).1⟩

/-- C4: on the service that already holds the id `conn_5_abcdefghi`, a connect that
generates the same id succeeds and replaces the record: there is no duplicate check. -/
theorem connect_duplicate_id_overwrites :
    (connect Service.init sampleBody (sampleEnv 5)).1.connections.get
        (generateConnectionId 5 "0.abcdefghijk") =
        some (newRecord sampleBody 0 (sampleEnv 5)) ∧
      (connect (connect Service.init sampleBody (sampleEnv 5)).1 sampleBody
          { sampleEnv 5 with createdAt := 9, lastUsed := 9 }).2 =
        Response.ok (some (generateConnectionId 5 "0.abcdefghijk")) ∧
      (connect (connect Service.init sampleBody (sampleEnv 5)).1 sampleBody
          { sampleEnv 5 with createdAt := 9, lastUsed := 9 }).1.connections.get
          (generateConnectionId 5 "0.abcdefghijk") =
        some (newRecord sampleBody 1 { sampleEnv 5 with createdAt := 9, lastUsed := 9 }) ∧
      newRecord sampleBody 1 { sampleEnv 5 with createdAt := 9, lastUsed := 9 } ≠
        newRecord sampleBody 0 (sampleEnv 5) := by
  decide

/-- What a successful `/connect` leaves in the table: the new record under the generated
id, every other id as before. -/
theorem connect_ok_stores (s : Service) (body : ConnectBody) (env : ConnectEnv)
    (id : String) (h : (connect s body env).2 = Response.ok (some id)) :
    id = generateConnectionId env.now env.random ∧
      (connect s body env).1.connections.get id = some (newRecord body s.pools env) ∧
      (∀ k, k ≠ id → (connect s body env).1.connections.get k = s.connections.get k) := by
  cases hp : (truthy body.host && truthy body.database && truthy body.username &&
      truthy body.password) with
  | false =>
    rw [connect_missing s body env hp] at h
    exact absurd h (by simp [missingConnectParams, Response.fail, Response.ok])
  | true =>
    cases ht : (env.handshakeOk && env.validationOk) with
    | false =>
      rw [connect_present s body env hp, if_neg (by simp [ht])] at h
      exact absurd h (by simp [connectionFailed, Response.fail, Response.ok])
    | true =>
      rw [connect_present s body env hp, if_pos ht] at h ⊢
      have hid : id = generateConnectionId env.now env.random := by
        simp only [Response.ok, Response.mk.injEq, Option.some.injEq, true_and] at h
        exact h.symm
      subst hid
      have hother : ∀ k, k ≠ generateConnectionId env.now env.random →
          (s.connections.set (generateConnectionId env.now env.random)
            (newRecord body s.pools env)).get k = s.connections.get k := by
        intro k hk
        have hk2 : ¬ generateConnectionId env.now env.random = k := fun e => hk e.symm
        simp [ConnMap.get_set, hk2]
      refine ⟨rfl, ?_, hother⟩
      simp [ConnMap.get_set]

/-- C4, as the code has it: a successful connect returns the generated id and stores the
new record under it with `Map.set`; every other id keeps its record; when the generated
id was not in the table, it differs from every live id and every live record is kept. -/
theorem connect_insert_semantics (s : Service) (body : ConnectBody) (env : ConnectEnv)
    (id : String) (h : (connect s body env).2 = Response.ok (some id)) :
    id = generateConnectionId env.now env.random ∧
      (connect s body env).1.connections.get id = some (newRecord body s.pools env) ∧
      (∀ k, k ≠ id → (connect s body env).1.connections.get k = s.connections.get k) ∧
      (s.connections.get id = none → ∀ k r, s.connections.get k = some r →
        k ≠ id ∧ (connect s body env).1.connections.get k = some r) := by
  obtain ⟨hid, hnew, hother⟩ := connect_ok_stores s body env id h
  refine ⟨hid, hnew, hother, ?_⟩
  intro hnone k r hk
  have hne : k ≠ id := by
    intro e
    rw [e, hnone] at hk
    exact absurd hk (by simp)
  exact ⟨hne, (hother k hne).trans hk⟩

/-- Witness of C4: the sample connect on the fresh service. -/
theorem connect_insert_semantics_witness :
    "conn_5_abcdefghi" = generateConnectionId 5 "0.abcdefghijk" ∧
      (connect Service.init sampleBody (sampleEnv 5)).1.connections.get "conn_5_abcdefghi" =
        some (newRecord sampleBody 0 (sampleEnv 5)) :=
  ⟨(connect_insert_semantics Service.init sampleBody (sampleEnv 5) "conn_5_abcdefghi"
      (by decide)).1,
    (connect_insert_semantics Service.init sampleBody (sampleEnv 5) "conn_5_abcdefghi"
      (by decide)).2.1⟩

/-! ## Lookup failures -/

theorem truthy_some (x : String) : truthy (some x) = true ↔ x ≠ "" := by
  simp [truthy]

/-- The `/query` handler on a string id, case by case. -/
theorem query_some (s : Service) (id : String) (sql : Option String) (queryOk : Bool)
    (now : Int) :
    query s (some id) sql queryOk now =
      if id = "" ∨ truthy sql = false then (s, missingQueryParams)
      else match s.connections.get id with
        | none => (s, connectionNotFound)
        | some connection =>
          if queryOk = true then
            ({ s with
                connections := s.connections.set id { connection with lastUsed := now } },
              Response.ok none)
          else (s, queryFailed) := by
  unfold query
  by_cases hid : id = ""
  · simp [hid, truthy]
  · cases hs : truthy sql with
    | false => simp [hs]
    | true =>
      have ht : truthy (some id) = true := (truthy_some id).2 hid
      simp only [ht, hid, Bool.not_true, Bool.or_self, Bool.false_eq_true, if_false,
        false_or]
      cases s.connections.get id with
      | none => rfl
      | some c => cases queryOk <;> simp

/-- The `/disconnect` handler on a string id, case by case. -/
theorem disconnect_some (s : Service) (id : String) (endOk : Bool) :
    disconnect s (some id) endOk =
      match s.connections.get id with
      | none => (s, connectionNotFound)
      | some connection =>
        if endOk = true then
          ({ connections := s.connections.delete id,
             ended := s.ended ++ [(connection.pool, true)], pools := s.pools },
            Response.ok none)
        else ({ s with ended := s.ended ++ [(connection.pool, false)] }, disconnectFailed) := by
  show (match s.connections.get id with
    | none => (s, connectionNotFound)
    | some connection =>
      if (!endOk) = true then
        ({ s with ended := s.ended ++ [(connection.pool, endOk)] }, disconnectFailed)
      else
        ({ connections := s.connections.delete id,
           ended := s.ended ++ [(connection.pool, endOk)], pools := s.pools },
          Response.ok none)) = _
  cases s.connections.get id with
  | none => rfl
  | some c => cases endOk <;> rfl

theorem ConnMap.get_filter_none (m : ConnMap) (p : String × Connection → Bool) (k : String)
    (hg : ConnMap.get m k = none) : ConnMap.get (m.filter p) k = none := by
  rw [ConnMap.get_eq_none_iff] at hg ⊢
  intro hmem
  apply hg
  simp only [ConnMap.keys, List.mem_map] at hmem ⊢
  obtain ⟨e, he, hek⟩ := hmem
  exact ⟨e, (List.mem_filter.1 he).1, hek⟩

/-- An id without record stays without record under every operation except a connect
that generates this id. -/
theorem absent_step (s : Service) (id : String) (hg : s.connections.get id = none)
    (op : Op) (hop : op.generates id = false) : (step s op).connections.get id = none := by
  cases op with
  | connect body env =>
    simp only [step]
    have hne : ¬ generateConnectionId env.now env.random = id := by
      simpa [Op.generates] using hop
    cases hp : (truthy body.host && truthy body.database && truthy body.username &&
        truthy body.password) with
    | false =>
      rw [connect_missing s body env hp]
      exact hg
    | true =>
      rw [connect_present s body env hp]
      cases ht : (env.handshakeOk && env.validationOk) with
      | false =>
        rw [if_neg (by simp)]
        exact hg
      | true =>
        rw [if_pos rfl]
        simp only [ConnMap.get_set, if_neg hne]
        exact hg
  | query connectionId sql queryOk now =>
    simp only [step]
    cases connectionId with
    | none =>
      have hq : query s none sql queryOk now = (s, missingQueryParams) := by
        simp [query, truthy]
      rw [hq]
      exact hg
    | some qid =>
      rw [query_some]
      by_cases hm : qid = "" ∨ truthy sql = false
      · rw [if_pos hm]
        exact hg
      · rw [if_neg hm]
        cases hq : s.connections.get qid with
        | none => exact hg
        | some c =>
          cases queryOk with
          | false => exact hg
          | true =>
            have hne : ¬ qid = id := by
              intro e
              rw [e, hg] at hq
              exact absurd hq (by simp)
            simp only [if_true, ConnMap.get_set, if_neg hne]
            exact hg
  | disconnect connectionId endOk =>
    simp only [step]
    cases connectionId with
    | none => exact hg
    | some did =>
      rw [disconnect_some]
      cases hq : s.connections.get did with
      | none => exact hg
      | some c =>
        cases endOk with
        | false => exact hg
        | true =>
          simp only [if_true, ConnMap.get_delete]
          by_cases hk : did = id
          · rw [if_pos hk]
          · rw [if_neg hk]
            exact hg
  | cleanupTick now maxAge endOk =>
    simp only [step, cleanupTick]
    rw [(cleanupFold now maxAge endOk s.connections s).1]
    exact ConnMap.get_filter_none _ _ _ hg
  | shutdown endOk => rfl

/-- An id without record stays without record along every sequence of operations in
which no connect generates this id. -/
theorem absent_run (ops : List Op) (s : Service) (id : String)
    (hg : s.connections.get id = none) (hops : ∀ op ∈ ops, op.generates id = false) :
    (run s ops).connections.get id = none := by
  induction ops generalizing s with
  | nil => exact hg
  | cons op ops ih =>
    exact ih (step s op) (absent_step s id hg op (hops op (List.mem_cons_self op ops)))
      (fun o ho => hops o (List.mem_cons_of_mem op ho))

/-- A connect or a query removes no record. -/
theorem present_step (s : Service) (id : String) (hg : s.connections.get id ≠ none)
    (op : Op) (hop : op.removesNothing = true) : (step s op).connections.get id ≠ none := by
  cases op with
  | connect body env =>
    simp only [step]
    cases hp : (truthy body.host && truthy body.database && truthy body.username &&
        truthy body.password) with
    | false =>
      rw [connect_missing s body env hp]
      exact hg
    | true =>
      rw [connect_present s body env hp]
      cases ht : (env.handshakeOk && env.validationOk) with
      | false =>
        rw [if_neg (by simp)]
        exact hg
      | true =>
        rw [if_pos rfl]
        simp only [ConnMap.get_set]
        by_cases hk : generateConnectionId env.now env.random = id
        · rw [if_pos hk]
          simp
        · rw [if_neg hk]
          exact hg
  | query connectionId sql queryOk now =>
    simp only [step]
    cases connectionId with
    | none =>
      have hq : query s none sql queryOk now = (s, missingQueryParams) := by
        simp [query, truthy]
      rw [hq]
      exact hg
    | some qid =>
      rw [query_some]
      by_cases hm : qid = "" ∨ truthy sql = false
      · rw [if_pos hm]
        exact hg
      · rw [if_neg hm]
        cases hq : s.connections.get qid with
        | none => exact hg
        | some c =>
          cases queryOk with
          | false => exact hg
          | true =>
            simp only [if_true, ConnMap.get_set]
            by_cases hk : qid = id
            · rw [if_pos hk]
              simp
            · rw [if_neg hk]
              exact hg
  | disconnect connectionId endOk => simp [Op.removesNothing] at hop
  | cleanupTick now maxAge endOk => simp [Op.removesNothing] at hop
  | shutdown endOk => simp [Op.removesNothing] at hop

/-- A record stays along every sequence of connects and queries. -/
theorem present_run (ops : List Op) (s : Service) (id : String)
    (hg : s.connections.get id ≠ none) (hops : ∀ op ∈ ops, op.removesNothing = true) :
    (run s ops).connections.get id ≠ none := by
  induction ops generalizing s with
  | nil => exact hg
  | cons op ops ih =>
    exact ih (step s op) (present_step s id hg op (hops op (List.mem_cons_self op ops)))
      (fun o ho => hops o (List.mem_cons_of_mem op ho))

/-- C5: with the empty command the `/query` handler answers 400 `Missing connectionId or
sql` for an id the table does not hold, not `Connection not found`. -/
theorem query_empty_sql_not_notFound :
    Service.init.connections.get "conn_5_abcdefghi" = none ∧
      (query Service.init (some "conn_5_abcdefghi") (some "") true 0).2 = missingQueryParams ∧
      (query Service.init (some "conn_5_abcdefghi") (some "") true 0).2 ≠ connectionNotFound := by
  decide

/-- C5, as the code has it: `/query` answers `Connection not found` exactly when id and
command are both non-empty and the table holds no record for the id (an empty or absent
id or command gives the 400 response first); `/schema` answers it exactly when the table
holds no record for the id.  After a connect that returned `id`, neither answers it for
`id` along any sequence of connects and queries (the operations that remove nothing).
After a disconnect that returned success the id has no record and every other id keeps
its record; from then on, along every sequence of operations in which no connect
generates this id again, `/schema` answers `Connection not found` and so does `/query`
for a non-empty id and command. -/
theorem lookup_failure (s : Service) :
    (∀ (id : String) (sql : Option String) (queryOk : Bool) (now : Int),
      (query s (some id) sql queryOk now).2 = connectionNotFound ↔
        (id ≠ "" ∧ truthy sql = true ∧ s.connections.get id = none)) ∧
    (∀ (sql : Option String) (queryOk : Bool) (now : Int),
      query s none sql queryOk now = (s, missingQueryParams)) ∧
    (∀ (id : String) (queryOk : Bool),
      schema s id queryOk = connectionNotFound ↔ s.connections.get id = none) ∧
    (∀ (body : ConnectBody) (env : ConnectEnv) (id : String),
      (connect s body env).2 = Response.ok (some id) →
      ∀ (ops : List Op), (∀ op ∈ ops, op.removesNothing = true) →
      ∀ (sql : Option String) (queryOk : Bool) (now : Int),
        (query (run (connect s body env).1 ops) (some id) sql queryOk now).2 ≠
            connectionNotFound ∧
          schema (run (connect s body env).1 ops) id queryOk ≠ connectionNotFound) ∧
    (∀ (id : String) (endOk : Bool),
      (disconnect s (some id) endOk).2 = Response.ok none →
      (disconnect s (some id) endOk).1.connections.get id = none ∧
        (∀ k, k ≠ id →
          (disconnect s (some id) endOk).1.connections.get k = s.connections.get k) ∧
        ∀ (ops : List Op), (∀ op ∈ ops, op.generates id = false) →
          (∀ queryOk,
            schema (run (disconnect s (some id) endOk).1 ops) id queryOk =
              connectionNotFound) ∧
          (∀ (sql : Option String) (queryOk : Bool) (now : Int), id ≠ "" →
            truthy sql = true →
            (query (run (disconnect s (some id) endOk).1 ops) (some id) sql queryOk now).2 =
              connectionNotFound)) := by
  have hq : ∀ (t : Service) (id : String) (sql : Option String) (queryOk : Bool) (now : Int),
      (query t (some id) sql queryOk now).2 = connectionNotFound ↔
        (id ≠ "" ∧ truthy sql = true ∧ t.connections.get id = none) := by
    intro t id sql queryOk now
    rw [query_some]
    by_cases hid : id = ""
    · simp only [hid, true_or, if_true, ne_eq, not_true_eq_false, false_and, iff_false]
      decide
    · cases hs : truthy sql with
      | false =>
        simp only [or_true, if_true, Bool.false_eq_true, false_and, and_false, iff_false]
        decide
      | true =>
        simp only [hid, Bool.true_eq_false, or_self, if_false, ne_eq, not_false_eq_true,
          true_and]
        cases hg : t.connections.get id with
        | none => simp
        | some c =>
          cases queryOk
          · simp only [Bool.false_eq_true, if_false]
            simp [queryFailed, connectionNotFound, Response.fail]
          · simp only [if_true]
            simp [connectionNotFound, Response.fail, Response.ok]
  have hs : ∀ (t : Service) (id : String) (queryOk : Bool),
      schema t id queryOk = connectionNotFound ↔ t.connections.get id = none := by
    intro t id queryOk
    unfold schema
    cases hg : t.connections.get id with
    | none => simp
    | some c =>
      cases queryOk
      · simp [schemaFailed, connectionNotFound, Response.fail]
      · simp [connectionNotFound, Response.fail, Response.ok]
  refine ⟨hq s, ?_, hs s, ?_, ?_⟩
  · intro sql queryOk now
    simp [query, truthy]
  · intro body env id h ops hops sql queryOk now
    have hg0 := (connect_ok_stores s body env id h).2.1
    have hg : (run (connect s body env).1 ops).connections.get id ≠ none :=
      present_run ops _ id (by rw [hg0]; simp) hops
    constructor
    · rw [Ne, hq]
      intro hc
      exact hg hc.2.2
    · rw [Ne, hs]
      intro hc
      exact hg hc
  · intro id endOk h
    rw [disconnect_some] at h ⊢
    cases hg : s.connections.get id with
    | none =>
      rw [hg] at h
      exact absurd h (by simp [connectionNotFound, Response.fail, Response.ok])
    | some c =>
      rw [hg] at h
      cases endOk with
      | false => exact absurd h (by simp [disconnectFailed, Response.fail, Response.ok])
      | true =>
        simp only [if_true]
        have hnone : (s.connections.delete id).get id = none := by
          simp [ConnMap.get_delete]
        refine ⟨hnone, ?_, ?_⟩
        · intro k hk
          have hk2 : ¬ id = k := fun e => hk e.symm
          simp [ConnMap.get_delete, hk2]
        · intro ops hops
          have hrun := absent_run ops
            { connections := s.connections.delete id,
              ended := s.ended ++ [(c.pool, true)], pools := s.pools } id hnone hops
          constructor
          · intro queryOk
            rw [hs]
            exact hrun
          · intro sql queryOk now hid hsql
            rw [hq]
            exact ⟨hid, hsql, hrun⟩

/-- Witness of C5: connect, then disconnect with a clean close, then a connect that
generates another id, then `SELECT 1` on the first id is answered `Connection not
found`. -/
theorem lookup_failure_witness :
    (query (run (disconnect (connect Service.init sampleBody (sampleEnv 5)).1
        (some "conn_5_abcdefghi") true).1 [Op.connect sampleBody (sampleEnv 8)])
        (some "conn_5_abcdefghi") (some "SELECT 1") true 9).2 = connectionNotFound :=
  (((lookup_failure (connect Service.init sampleBody (sampleEnv 5)).1).2.2.2.2
    "conn_5_abcdefghi" true (by decide)).2.2 [Op.connect sampleBody (sampleEnv 8)]
    (by decide)).2 (some "SELECT 1") true 9 (by decide) (by decide)

/-- The proviso of C5 is needed: after connect and a clean disconnect, a connect that
generates the same id again puts a record under it, and `/query` and `/schema` on the
id succeed. -/
theorem lookup_after_regenerated_id :
    (query (run Service.init [Op.connect sampleBody (sampleEnv 5),
        Op.disconnect (some "conn_5_abcdefghi") true,
        Op.connect sampleBody (sampleEnv 5)])
        (some "conn_5_abcdefghi") (some "SELECT 1") true 9).2 = Response.ok none ∧
      schema (run Service.init [Op.connect sampleBody (sampleEnv 5),
        Op.disconnect (some "conn_5_abcdefghi") true,
        Op.connect sampleBody (sampleEnv 5)]) "conn_5_abcdefghi" true = Response.ok none := by
  decide

/-! ## Closing pools -/

/-- C2: after a connect, a disconnect whose close fails leaves the record in the table,
so that a second disconnect, the shutdown drain or a reaper tick invokes `pool.end()` on
the same pool a second time. -/
theorem pool_end_twice_after_failed_disconnect :
    (run Service.init [Op.connect sampleBody (sampleEnv 5),
        Op.disconnect (some "conn_5_abcdefghi") false,
        Op.disconnect (some "conn_5_abcdefghi") true]).endCount 0 = 2 ∧
      (run Service.init [Op.connect sampleBody (sampleEnv 5),
        Op.disconnect (some "conn_5_abcdefghi") false,
        Op.shutdown (fun _ => true)]).endCount 0 = 2 ∧
      (run Service.init [Op.connect sampleBody (sampleEnv 5),
        Op.disconnect (some "conn_5_abcdefghi") false,
        Op.cleanupTick 100 10 (fun _ => true)]).endCount 0 = 2 := by
  decide

/-! ## Timestamps -/

namespace ConnMap

theorem mem_set (m : ConnMap) (k : String) (v : Connection) (e : String × Connection)
    (h : e ∈ set m k v) : e = (k, v) ∨ e ∈ m := by
  unfold set at h
  by_cases hh : has m k = true
  · rw [if_pos hh, List.mem_map] at h
    obtain ⟨x, hx, hxe⟩ := h
    by_cases hk : x.1 = k
    · left
      rw [if_pos hk] at hxe
      exact hxe.symm
    · right
      rw [if_neg hk] at hxe
      exact hxe ▸ hx
  · rw [if_neg hh, List.mem_append, List.mem_singleton] at h
    exact h.symm

end ConnMap

theorem readings_append (ops ops2 : List Op) :
    readings (ops ++ ops2) = readings ops ++ readings ops2 := by
  induction ops with
  | nil => rfl
  | cons op ops ih => simp [readings, ih]

theorem readings_singleton (op : Op) : readings [op] = op.readings := by
  simp [readings]

theorem inv_mono (rs l : List Int) (s : Service) (h : Inv rs s) : Inv (rs ++ l) s :=
  ⟨h.1, fun e he => ⟨(h.2 e he).1, (h.2 e he).2.1, List.mem_append_left l (h.2 e he).2.2⟩⟩

theorem inv_of_sub (rs : List Int) (s t : Service) (h : Inv rs s)
    (hw : t.connections.WF) (hsub : ∀ e ∈ t.connections, e ∈ s.connections)
    (hp : s.pools ≤ t.pools) : Inv rs t :=
  ⟨hw, fun e he => ⟨lt_of_lt_of_le (h.2 e (hsub e he)).1 hp, (h.2 e (hsub e he)).2⟩⟩

theorem inv_connect (rs : List Int) (s : Service) (h : Inv rs s) (body : ConnectBody)
    (env : ConnectEnv)
    (hc : (rs ++ [env.now, env.createdAt, env.lastUsed]).Pairwise (fun a b => a ≤ b)) :
    Inv (rs ++ [env.now, env.createdAt, env.lastUsed]) (connect s body env).1 := by
  cases hp : (truthy body.host && truthy body.database && truthy body.username &&
      truthy body.password) with
  | false =>
    rw [connect_missing s body env hp]
    exact inv_mono _ _ _ h
  | true =>
    rw [connect_present s body env hp]
    cases ht : (env.handshakeOk && env.validationOk) with
    | false =>
      rw [if_neg (by simp)]
      exact inv_mono _ _ _ (inv_of_sub rs s _ h h.1 (fun e he => he) (Nat.le_succ _))
    | true =>
      rw [if_pos rfl]
      refine ⟨ConnMap.wf_set _ h.1 _ _, ?_⟩
      intro e he
      rcases ConnMap.mem_set _ _ _ _ he with he | he
      · subst he
        have hcl : env.createdAt ≤ env.lastUsed := by
          have := (List.pairwise_append.1 hc).2.1
          simp only [List.pairwise_cons] at this
          exact this.2.1 _ (List.mem_singleton.2 rfl)
        exact ⟨Nat.lt_succ_self _, hcl, by simp [newRecord]⟩
      · exact ⟨Nat.lt_succ_of_lt (h.2 e he).1, (h.2 e he).2.1,
          List.mem_append_left _ (h.2 e he).2.2⟩

theorem inv_query (rs : List Int) (s : Service) (h : Inv rs s)
    (connectionId sql : Option String) (queryOk : Bool) (now : Int)
    (hc : (rs ++ [now]).Pairwise (fun a b => a ≤ b)) :
    Inv (rs ++ [now]) (query s connectionId sql queryOk now).1 := by
  cases connectionId with
  | none =>
    have : query s none sql queryOk now = (s, missingQueryParams) := by
      simp [query, truthy]
    rw [this]
    exact inv_mono _ _ _ h
  | some id =>
    rw [query_some]
    by_cases hm : id = "" ∨ truthy sql = false
    · rw [if_pos hm]
      exact inv_mono _ _ _ h
    · rw [if_neg hm]
      cases hg : s.connections.get id with
      | none => exact inv_mono _ _ _ h
      | some c =>
        cases queryOk with
        | false => exact inv_mono _ _ _ h
        | true =>
          simp only [if_true]
          have hcm := h.2 _ (ConnMap.mem_of_get _ _ _ hg)
          refine ⟨ConnMap.wf_set _ h.1 _ _, ?_⟩
          intro e he
          rcases ConnMap.mem_set _ _ _ _ he with he | he
          · subst he
            have hle : c.lastUsed ≤ now :=
              (List.pairwise_append.1 hc).2.2 _ hcm.2.2 _ (List.mem_singleton.2 rfl)
            exact ⟨hcm.1, le_trans hcm.2.1 hle, by simp⟩
          · exact ⟨(h.2 e he).1, (h.2 e he).2.1, List.mem_append_left _ (h.2 e he).2.2⟩

theorem inv_disconnect (rs : List Int) (s : Service) (h : Inv rs s)
    (connectionId : Option String) (endOk : Bool) :
    Inv rs (disconnect s connectionId endOk).1 := by
  cases connectionId with
  | none => exact h
  | some id =>
    rw [disconnect_some]
    cases hg : s.connections.get id with
    | none => exact h
    | some c =>
      cases endOk with
      | false => exact h
      | true =>
        exact inv_of_sub rs s _ h (ConnMap.wf_delete _ h.1 _)
          (fun e he => (List.mem_filter.1 he).1) (le_refl _)

theorem inv_cleanupTick (rs : List Int) (s : Service) (h : Inv rs s) (now maxAge : Int)
    (endOk : Nat → Bool) : Inv rs (cleanupTick s now maxAge endOk) := by
  have hc := cleanupTick_connections s h.1 now maxAge endOk
  have hp : (cleanupTick s now maxAge endOk).pools = s.pools :=
    (cleanupFold now maxAge endOk s.connections s).2.2
  refine inv_of_sub rs s _ h ?_ ?_ (le_of_eq hp.symm)
  · rw [hc]
    exact ConnMap.wf_filter _ h.1 _
  · intro e he
    rw [hc] at he
    exact (List.mem_filter.1 he).1

theorem inv_shutdown (rs : List Int) (s : Service) (endOk : Nat → Bool) :
    Inv rs (shutdown s endOk) :=
  ⟨List.nodup_nil, fun e he => absurd he (List.not_mem_nil e)⟩

theorem inv_step (rs : List Int) (s : Service) (h : Inv rs s) (op : Op)
    (hc : (rs ++ op.readings).Pairwise (fun a b => a ≤ b)) :
    Inv (rs ++ op.readings) (step s op) := by
  cases op with
  | connect body env => exact inv_connect rs s h body env hc
  | query connectionId sql queryOk now => exact inv_query rs s h connectionId sql queryOk now hc
  | disconnect connectionId endOk =>
    exact inv_mono _ _ _ (inv_disconnect rs s h connectionId endOk)
  | cleanupTick now maxAge endOk =>
    exact inv_mono _ _ _ (inv_cleanupTick rs s h now maxAge endOk)
  | shutdown endOk => exact inv_shutdown _ s endOk

theorem inv_run (ops : List Op) (rs : List Int) (s : Service) (h : Inv rs s)
    (hc : (rs ++ readings ops).Pairwise (fun a b => a ≤ b)) :
    Inv (rs ++ readings ops) (run s ops) := by
  induction ops generalizing rs s with
  | nil => simpa [readings, run] using h
  | cons op ops ih =>
    have e : rs ++ readings (op :: ops) = (rs ++ op.readings) ++ readings ops := by
      simp [readings]
    rw [e] at hc ⊢
    have hs := inv_step rs s h op (List.pairwise_append.1 hc).1
    exact ih (rs ++ op.readings) (step s op) hs hc

theorem inv_init : Inv [] Service.init :=
  ⟨List.nodup_nil, fun e he => absurd he (List.not_mem_nil e)⟩

theorem inv_reachable (ops : List Op) (hc : ClockMonotone ops) :
    Inv (readings ops) (run Service.init ops) := by
  have := inv_run ops [] Service.init inv_init (by simpa using hc)
  simpa using this

/-- One operation on a state satisfying the invariant leaves the record under an id as
it is, or is a successful query on that id, which moves `lastUsed` forward to its clock
reading, or is a successful connect that generated this very id, which puts a new record
with a new pool in its place. -/
theorem step_record (rs : List Int) (s : Service) (h : Inv rs s) (op : Op)
    (hc : (rs ++ op.readings).Pairwise (fun a b => a ≤ b))
    (id : String) (r r' : Connection) (hg : s.connections.get id = some r)
    (hg' : (step s op).connections.get id = some r') :
    r' = r ∨
      (∃ sql now, op = Op.query (some id) sql true now ∧
        r' = { r with lastUsed := now } ∧ r.lastUsed ≤ now) ∨
      (∃ body env, op = Op.connect body env ∧
        generateConnectionId env.now env.random = id ∧
        r' = newRecord body s.pools env ∧ r.lastUsed ≤ env.lastUsed ∧ r.pool < s.pools) := by
  have hr := h.2 _ (ConnMap.mem_of_get _ _ _ hg)
  cases op with
  | connect body env =>
    simp only [step] at hg'
    cases hp : (truthy body.host && truthy body.database && truthy body.username &&
        truthy body.password) with
    | false =>
      left
      rw [connect_missing s body env hp, hg] at hg'
      exact (Option.some.inj hg').symm
    | true =>
      rw [connect_present s body env hp] at hg'
      cases ht : (env.handshakeOk && env.validationOk) with
      | false =>
        left
        rw [if_neg (by simp [ht])] at hg'
        simp only [hg] at hg'
        exact (Option.some.inj hg').symm
      | true =>
        rw [if_pos ht] at hg'
        simp only [ConnMap.get_set] at hg'
        by_cases hk : generateConnectionId env.now env.random = id
        · right
          right
          rw [if_pos hk] at hg'
          refine ⟨body, env, rfl, hk, (Option.some.inj hg').symm, ?_, hr.1⟩
          exact (List.pairwise_append.1 hc).2.2 _ hr.2.2 _ (by simp [Op.readings])
        · left
          rw [if_neg hk, hg] at hg'
          exact (Option.some.inj hg').symm
  | query connectionId sql queryOk now =>
    simp only [step] at hg'
    cases connectionId with
    | none =>
      left
      have hq : query s none sql queryOk now = (s, missingQueryParams) := by
        simp [query, truthy]
      rw [hq, hg] at hg'
      exact (Option.some.inj hg').symm
    | some qid =>
      rw [query_some] at hg'
      by_cases hm : qid = "" ∨ truthy sql = false
      · left
        rw [if_pos hm, hg] at hg'
        exact (Option.some.inj hg').symm
      · rw [if_neg hm] at hg'
        cases hq : s.connections.get qid with
        | none =>
          left
          rw [hq] at hg'
          simp only [hg] at hg'
          exact (Option.some.inj hg').symm
        | some c =>
          rw [hq] at hg'
          cases queryOk with
          | false =>
            left
            simp only [Bool.false_eq_true, if_false, hg] at hg'
            exact (Option.some.inj hg').symm
          | true =>
            simp only [if_true, ConnMap.get_set] at hg'
            by_cases hk : qid = id
            · right
              left
              rw [if_pos hk] at hg'
              subst hk
              rw [hg] at hq
              have hcr : r = c := Option.some.inj hq
              subst hcr
              refine ⟨sql, now, rfl, (Option.some.inj hg').symm, ?_⟩
              exact (List.pairwise_append.1 hc).2.2 _ hr.2.2 _ (List.mem_singleton.2 rfl)
            · left
              rw [if_neg hk, hg] at hg'
              exact (Option.some.inj hg').symm
  | disconnect connectionId endOk =>
    left
    simp only [step] at hg'
    cases connectionId with
    | none =>
      have hd : disconnect s none endOk = (s, connectionNotFound) := rfl
      rw [hd, hg] at hg'
      exact (Option.some.inj hg').symm
    | some did =>
      rw [disconnect_some] at hg'
      cases hq : s.connections.get did with
      | none =>
        rw [hq] at hg'
        simp only [hg] at hg'
        exact (Option.some.inj hg').symm
      | some c =>
        rw [hq] at hg'
        cases endOk with
        | false =>
          simp only [Bool.false_eq_true, if_false, hg] at hg'
          exact (Option.some.inj hg').symm
        | true =>
          simp only [if_true, ConnMap.get_delete] at hg'
          by_cases hk : did = id
          · rw [if_pos hk] at hg'
            exact absurd hg' (by simp)
          · rw [if_neg hk, hg] at hg'
            exact (Option.some.inj hg').symm
  | cleanupTick now maxAge endOk =>
    left
    simp only [step] at hg'
    rw [cleanupTick_connections s h.1 now maxAge endOk] at hg'
    have hmem := (List.mem_filter.1 (ConnMap.mem_of_get _ _ _ hg')).1
    have hget := ConnMap.get_of_mem _ h.1 _ _ hmem
    rw [hg] at hget
    exact (Option.some.inj hget).symm
  | shutdown endOk =>
    simp only [step] at hg'
    have hsd : (shutdown s endOk).connections = [] := rfl
    rw [hsd] at hg'
    exact absurd hg' (by simp [ConnMap.get])

theorem run_append_singleton (s : Service) (ops : List Op) (op : Op) :
    run s (ops ++ [op]) = step (run s ops) op := by
  simp [run, List.foldl_append]

/-- C7: on the service that holds `conn_5_abcdefghi` with `createdAt = lastUsed = 5`, a
connect that generates the same id (clock readings 5, 9, 9, never decreasing) leaves
`createdAt = lastUsed = 9` under the id: both changed, and not by a query. -/
theorem timestamps_replaced_by_colliding_connect :
    ClockMonotone ([Op.connect sampleBody (sampleEnv 5)] ++
        [Op.connect sampleBody { sampleEnv 5 with createdAt := 9, lastUsed := 9 }]) ∧
      (run Service.init [Op.connect sampleBody (sampleEnv 5)]).connections.get
        "conn_5_abcdefghi" = some (newRecord sampleBody 0 (sampleEnv 5)) ∧
      (run Service.init ([Op.connect sampleBody (sampleEnv 5)] ++
        [Op.connect sampleBody { sampleEnv 5 with createdAt := 9, lastUsed := 9 }])).connections.get
        "conn_5_abcdefghi" =
        some (newRecord sampleBody 1 { sampleEnv 5 with createdAt := 9, lastUsed := 9 }) ∧
      (newRecord sampleBody 1 { sampleEnv 5 with createdAt := 9, lastUsed := 9 }).createdAt ≠
        (newRecord sampleBody 0 (sampleEnv 5)).createdAt ∧
      (newRecord sampleBody 1 { sampleEnv 5 with createdAt := 9, lastUsed := 9 }).lastUsed ≠
        (newRecord sampleBody 0 (sampleEnv 5)).lastUsed :=
  ⟨by unfold ClockMonotone; decide, by decide, by decide, by decide, by decide⟩

/-- C7, as the code has it: when successive clock readings never decrease, every record
of a state reached from the fresh service by connect, query, disconnect, reaper ticks
and shutdowns has `createdAt ≤ lastUsed`.  One further operation never decreases the
`lastUsed` found under an id.  Either it keeps the record object under the id (same
pool, same `createdAt`) and changes `lastUsed` only when it is a successful query on
that id, or it is a successful connect that generated this very id and put a new record
with another pool in its place.  So a record that is still the same object keeps its
`createdAt`, and its `lastUsed` changes only by a successful query on its id. -/
theorem timestamp_invariant (ops : List Op) (op : Op) (hclock : ClockMonotone (ops ++ [op])) :
    (∀ id r, (run Service.init ops).connections.get id = some r →
      r.createdAt ≤ r.lastUsed) ∧
    (∀ id r, (run Service.init (ops ++ [op])).connections.get id = some r →
      r.createdAt ≤ r.lastUsed) ∧
    (∀ id r r', (run Service.init ops).connections.get id = some r →
      (run Service.init (ops ++ [op])).connections.get id = some r' →
      r.lastUsed ≤ r'.lastUsed ∧
        ((r'.pool = r.pool ∧ r'.createdAt = r.createdAt ∧
            (r'.lastUsed ≠ r.lastUsed →
              ∃ sql now, op = Op.query (some id) sql true now ∧ r'.lastUsed = now)) ∨
          (r'.pool ≠ r.pool ∧ ∃ body env, op = Op.connect body env ∧
            generateConnectionId env.now env.random = id ∧
            r' = newRecord body (run Service.init ops).pools env)) ∧
        (r'.pool = r.pool →
          r'.createdAt = r.createdAt ∧
            (r'.lastUsed ≠ r.lastUsed →
              ∃ sql now, op = Op.query (some id) sql true now ∧ r'.lastUsed = now))) := by
  have hc2 : (readings ops ++ op.readings).Pairwise (fun a b => a ≤ b) := by
    have := hclock
    unfold ClockMonotone at this
    rwa [readings_append, readings_singleton] at this
  have hc1 : ClockMonotone ops := (List.pairwise_append.1 hc2).1
  have hinv := inv_reachable ops hc1
  have hinv2 := inv_reachable (ops ++ [op]) hclock
  refine ⟨?_, ?_, ?_⟩
  · intro id r hg
    exact (hinv.2 _ (ConnMap.mem_of_get _ _ _ hg)).2.1
  · intro id r hg
    exact (hinv2.2 _ (ConnMap.mem_of_get _ _ _ hg)).2.1
  · intro id r r' hg hg'
    rw [run_append_singleton] at hg'
    rcases step_record _ _ hinv op hc2 id r r' hg hg' with
      hrr | ⟨sql, now, hop, hrr, hle⟩ | ⟨body, env, hop, hid, hrr, hle, hlt⟩
    · subst hrr
      exact ⟨le_refl _, Or.inl ⟨rfl, rfl, fun hne => absurd rfl hne⟩,
        fun _ => ⟨rfl, fun hne => absurd rfl hne⟩⟩
    · subst hrr
      exact ⟨hle, Or.inl ⟨rfl, rfl, fun _ => ⟨sql, now, hop, rfl⟩⟩,
        fun _ => ⟨rfl, fun _ => ⟨sql, now, hop, rfl⟩⟩⟩
    · subst hrr
      have hne : (newRecord body (run Service.init ops).pools env).pool ≠ r.pool := by
        simp only [newRecord]
        omega
      exact ⟨hle, Or.inr ⟨hne, body, env, hop, hid, rfl⟩, fun hp => absurd hp hne⟩

/-- Witness of C7: a connect at time 5 followed by a successful query at time 7 on the
returned id moves `lastUsed` from 5 to 7 and keeps `createdAt`. -/
theorem timestamp_invariant_witness :
    ClockMonotone ([Op.connect sampleBody (sampleEnv 5)] ++
        [Op.query (some "conn_5_abcdefghi") (some "SELECT 1") true 7]) ∧
      (run Service.init [Op.connect sampleBody (sampleEnv 5)]).connections.get
        "conn_5_abcdefghi" = some (newRecord sampleBody 0 (sampleEnv 5)) ∧
      (run Service.init ([Op.connect sampleBody (sampleEnv 5)] ++
        [Op.query (some "conn_5_abcdefghi") (some "SELECT 1") true 7])).connections.get
        "conn_5_abcdefghi" = some { newRecord sampleBody 0 (sampleEnv 5) with lastUsed := 7 } ∧
      (newRecord sampleBody 0 (sampleEnv 5)).lastUsed ≤ 7 ∧
      (newRecord sampleBody 0 (sampleEnv 5)).createdAt = 5 :=
  ⟨by unfold ClockMonotone; decide, by decide, by decide,
    ((timestamp_invariant [Op.connect sampleBody (sampleEnv 5)]
      (Op.query (some "conn_5_abcdefghi") (some "SELECT 1") true 7)
      (by unfold ClockMonotone; decide)).2.2 "conn_5_abcdefghi"
      (newRecord sampleBody 0 (sampleEnv 5))
      { newRecord sampleBody 0 (sampleEnv 5) with lastUsed := 7 }
      (by decide) (by decide)).1,
    (((timestamp_invariant [Op.connect sampleBody (sampleEnv 5)]
      (Op.query (some "conn_5_abcdefghi") (some "SELECT 1") true 7)
      (by unfold ClockMonotone; decide)).2.2 "conn_5_abcdefghi"
      (newRecord sampleBody 0 (sampleEnv 5))
      { newRecord sampleBody 0 (sampleEnv 5) with lastUsed := 7 }
      (by decide) (by decide)).2.2 rfl).1.symm⟩

/-! ## Closing pools: the paths that keep the count at one -/

namespace ConnMap

theorem mem_poolsOf (m : ConnMap) (p : Nat) :
    p ∈ poolsOf m ↔ ∃ e ∈ m, e.2.pool = p := by
  simp [poolsOf]

theorem poolsOf_filter_sublist (m : ConnMap) (q : String × Connection → Bool) :
    (poolsOf (m.filter q)).Sublist (poolsOf m) :=
  List.Sublist.map _ (List.filter_sublist m)

theorem eq_of_pool_eq (m : ConnMap) (hnd : (poolsOf m).Nodup) (x e : String × Connection)
    (hx : x ∈ m) (he : e ∈ m) (hp : x.2.pool = e.2.pool) : x = e :=
  List.inj_on_of_nodup_map hnd hx he hp

theorem poolsOf_set_nodup (m : ConnMap) (hwf : WF m) (hnd : (poolsOf m).Nodup)
    (k : String) (v : Connection) (hfresh : v.pool ∉ poolsOf m) :
    (poolsOf (set m k v)).Nodup := by
  unfold set
  by_cases hh : has m k = true
  · rw [if_pos hh]
    clear hh
    induction m with
    | nil => simp [poolsOf]
    | cons e m ih =>
      have hw : e.1 ∉ keys m ∧ (keys m).Nodup := by simpa [WF, keys] using hwf
      have hn : e.2.pool ∉ poolsOf m ∧ (poolsOf m).Nodup := by
        simpa [poolsOf] using hnd
      have hf : ¬ v.pool = e.2.pool ∧ v.pool ∉ poolsOf m := by
        simpa [poolsOf] using hfresh
      by_cases he : e.1 = k
      · have hnot : ∀ x ∈ m, ¬ x.1 = k := by
          intro x hx hxk
          apply hw.1
          rw [he, ← hxk]
          exact List.mem_map_of_mem Prod.fst hx
        have hmap : m.map (fun e => if e.1 = k then (k, v) else e) = m := by
          conv_rhs => rw [← List.map_id m]
          apply List.map_congr_left
          intro x hx
          simp [hnot x hx]
        simp only [List.map_cons, he, if_true, hmap, poolsOf, List.nodup_cons]
        exact ⟨hf.2, hn.2⟩
      · simp only [List.map_cons, he, if_false, poolsOf, List.nodup_cons]
        refine ⟨?_, ih hw.2 hn.2 hf.2⟩
        intro hmem
        rw [List.mem_map] at hmem
        obtain ⟨y, hy, hyp⟩ := hmem
        rw [List.mem_map] at hy
        obtain ⟨x, hx, hxy⟩ := hy
        by_cases hxk : x.1 = k
        · rw [if_pos hxk] at hxy
          rw [← hxy] at hyp
          exact hf.1 hyp
        · rw [if_neg hxk] at hxy
          rw [← hxy] at hyp
          exact hn.1 ((mem_poolsOf m _).2 ⟨x, hx, hyp⟩)
  · rw [if_neg hh]
    simp only [poolsOf, List.map_append, List.map_cons, List.map_nil]
    rw [List.nodup_append]
    refine ⟨hnd, List.nodup_singleton _, ?_⟩
    intro a ha hb
    rw [List.mem_singleton] at hb
    exact hfresh (hb ▸ ha)

theorem poolsOf_set_touch (m : ConnMap) (hwf : WF m) (k : String) (c : Connection)
    (hg : get m k = some c) (t : Int) :
    poolsOf (set m k { c with lastUsed := t }) = poolsOf m := by
  have hh : has m k = true := by
    rw [has_eq_true_iff]
    by_contra hk
    rw [← get_eq_none_iff, hg] at hk
    exact absurd hk (by simp)
  unfold set
  rw [if_pos hh]
  simp only [poolsOf, List.map_map]
  apply List.map_congr_left
  intro x hx
  by_cases hxk : x.1 = k
  · have hxc : get m x.1 = some x.2 := get_of_mem m hwf x.1 x.2 hx
    rw [hxk, hg] at hxc
    simp [hxk, ← Option.some.inj hxc]
  · simp [hxk]

end ConnMap

theorem endCount_le_one (s : Service) (h : s.endedPools.Nodup) (p : Nat) :
    s.endCount p ≤ 1 := by
  have hcount : s.endCount p = List.count p s.endedPools := by
    unfold Service.endCount Service.endedPools
    rw [List.count, List.countP_map, List.countP_eq_length_filter]
    rfl
  rw [hcount]
  exact List.nodup_iff_count_le_one.1 h p

theorem poolInv_init : PoolInv Service.init := by
  refine ⟨List.nodup_nil, List.nodup_nil, ?_, List.nodup_nil, ?_⟩ <;>
    intro p hp <;> exact absurd hp (List.not_mem_nil p)

theorem poolInv_connect (s : Service) (h : PoolInv s) (body : ConnectBody) (env : ConnectEnv) :
    PoolInv (connect s body env).1 := by
  obtain ⟨hwf, hnd, hlt, hend, hdis⟩ := h
  cases hp : (truthy body.host && truthy body.database && truthy body.username &&
      truthy body.password) with
  | false =>
    rw [connect_missing s body env hp]
    exact ⟨hwf, hnd, hlt, hend, hdis⟩
  | true =>
    rw [connect_present s body env hp]
    cases ht : (env.handshakeOk && env.validationOk) with
    | false =>
      rw [if_neg (by simp)]
      exact ⟨hwf, hnd, fun p hp => Nat.lt_succ_of_lt (hlt p hp), hend,
        fun p hp => ⟨Nat.lt_succ_of_lt (hdis p hp).1, (hdis p hp).2⟩⟩
    | true =>
      rw [if_pos rfl]
      have hfresh : (newRecord body s.pools env).pool ∉ s.connections.poolsOf := by
        intro hmem
        exact absurd (hlt _ hmem) (by simp [newRecord])
      have hmem : ∀ p ∈ (s.connections.set (generateConnectionId env.now env.random)
          (newRecord body s.pools env)).poolsOf, p = s.pools ∨ p ∈ s.connections.poolsOf := by
        intro p hp
        obtain ⟨e, he, hep⟩ := (ConnMap.mem_poolsOf _ _).1 hp
        rcases ConnMap.mem_set _ _ _ _ he with he | he
        · left
          rw [← hep, he]
          rfl
        · right
          exact (ConnMap.mem_poolsOf _ _).2 ⟨e, he, hep⟩
      refine ⟨ConnMap.wf_set _ hwf _ _, ConnMap.poolsOf_set_nodup _ hwf hnd _ _ hfresh,
        ?_, hend, ?_⟩
      · intro p hp
        rcases hmem p hp with hp | hp
        · rw [hp]
          exact Nat.lt_succ_self _
        · exact Nat.lt_succ_of_lt (hlt p hp)
      · intro p hp
        refine ⟨Nat.lt_succ_of_lt (hdis p hp).1, ?_⟩
        intro hin
        rcases hmem p hin with hq | hq
        · exact absurd (hdis p hp).1 (by rw [hq]; exact lt_irrefl _)
        · exact (hdis p hp).2 hq

theorem poolInv_query (s : Service) (h : PoolInv s) (connectionId sql : Option String)
    (queryOk : Bool) (now : Int) : PoolInv (query s connectionId sql queryOk now).1 := by
  cases connectionId with
  | none =>
    have : query s none sql queryOk now = (s, missingQueryParams) := by
      simp [query, truthy]
    rw [this]
    exact h
  | some id =>
    rw [query_some]
    by_cases hm : id = "" ∨ truthy sql = false
    · rw [if_pos hm]
      exact h
    · rw [if_neg hm]
      cases hg : s.connections.get id with
      | none => exact h
      | some c =>
        cases queryOk with
        | false => exact h
        | true =>
          obtain ⟨hwf, hnd, hlt, hend, hdis⟩ := h
          have hp := ConnMap.poolsOf_set_touch _ hwf id c hg now
          simp only [if_true]
          refine ⟨ConnMap.wf_set _ hwf _ _, ?_, ?_, hend, ?_⟩
          · simp only [hp]
            exact hnd
          · simp only [hp]
            exact hlt
          · simp only [hp]
            exact hdis

theorem poolInv_disconnect (s : Service) (h : PoolInv s) (connectionId : Option String) :
    PoolInv (disconnect s connectionId true).1 := by
  cases connectionId with
  | none => exact h
  | some id =>
    rw [disconnect_some]
    cases hg : s.connections.get id with
    | none => exact h
    | some c =>
      obtain ⟨hwf, hnd, hlt, hend, hdis⟩ := h
      have hcm : (id, c) ∈ s.connections := ConnMap.mem_of_get _ _ _ hg
      have hcp : c.pool ∈ s.connections.poolsOf := (ConnMap.mem_poolsOf _ _).2 ⟨_, hcm, rfl⟩
      have hsub := ConnMap.poolsOf_filter_sublist s.connections (fun e => e.1 != id)
      simp only [if_true]
      refine ⟨ConnMap.wf_delete _ hwf _, List.Nodup.sublist hsub hnd,
        fun p hp => hlt p (hsub.subset hp), ?_, ?_⟩
      · simp only [Service.endedPools, List.map_append, List.map_cons, List.map_nil]
        rw [List.nodup_append]
        refine ⟨hend, List.nodup_singleton _, ?_⟩
        intro a ha hb
        rw [List.mem_singleton] at hb
        exact (hdis a ha).2 (hb ▸ hcp)
      · intro p hp
        simp only [Service.endedPools, List.map_append, List.map_cons, List.map_nil,
          List.mem_append, List.mem_singleton] at hp
        rcases hp with hp | hp
        · exact ⟨(hdis p hp).1, fun hin => (hdis p hp).2 (hsub.subset hin)⟩
        · refine ⟨by rw [hp]; exact hlt _ hcp, ?_⟩
          intro hin
          obtain ⟨e, he, hep⟩ := (ConnMap.mem_poolsOf _ _).1 hin
          have hef := List.mem_filter.1 he
          have hee : e = (id, c) :=
            ConnMap.eq_of_pool_eq _ hnd e (id, c) hef.1 hcm (hep.trans hp)
          rw [hee] at hef
          simp at hef

theorem poolInv_cleanupTick (s : Service) (h : PoolInv s) (now maxAge : Int)
    (endOk : Nat → Bool) : PoolInv (cleanupTick s now maxAge endOk) := by
  obtain ⟨hwf, hnd, hlt, hend, hdis⟩ := h
  have hc := cleanupTick_connections s hwf now maxAge endOk
  obtain ⟨_, he, hp⟩ := cleanupFold now maxAge endOk s.connections s
  have hsub := ConnMap.poolsOf_filter_sublist s.connections
    (fun e => decide (now - e.2.lastUsed ≤ maxAge))
  have hpools : (cleanupTick s now maxAge endOk).endedPools =
      s.endedPools ++ ConnMap.poolsOf
        (s.connections.filter (fun x => decide (now - x.2.lastUsed > maxAge))) := by
    unfold cleanupTick Service.endedPools
    rw [he]
    simp [ConnMap.poolsOf, List.map_map, Function.comp_def]
  have hsub2 := ConnMap.poolsOf_filter_sublist s.connections
    (fun x => decide (now - x.2.lastUsed > maxAge))
  have hpl : (cleanupTick s now maxAge endOk).pools = s.pools := hp
  refine ⟨?_, ?_, ?_, ?_, ?_⟩
  · rw [hc]
    exact ConnMap.wf_filter _ hwf _
  · rw [hc]
    exact List.Nodup.sublist hsub hnd
  · rw [hc, hpl]
    exact fun p hp => hlt p (hsub.subset hp)
  · rw [hpools, List.nodup_append]
    refine ⟨hend, List.Nodup.sublist hsub2 hnd, ?_⟩
    intro a ha hb
    exact (hdis a ha).2 (hsub2.subset hb)
  · intro p hpm
    rw [hpools, List.mem_append] at hpm
    rw [hc, hpl]
    rcases hpm with hpm | hpm
    · exact ⟨(hdis p hpm).1, fun hin => (hdis p hpm).2 (hsub.subset hin)⟩
    · refine ⟨hlt p (hsub2.subset hpm), ?_⟩
      intro hin
      obtain ⟨x, hx, hxp⟩ := (ConnMap.mem_poolsOf _ _).1 hpm
      obtain ⟨e, hem, hep⟩ := (ConnMap.mem_poolsOf _ _).1 hin
      have hxf := List.mem_filter.1 hx
      have hef := List.mem_filter.1 hem
      have hxe : x = e :=
        ConnMap.eq_of_pool_eq _ hnd x e hxf.1 hef.1 (hxp.trans hep.symm)
      rw [hxe] at hxf
      have h1 : now - e.2.lastUsed > maxAge := of_decide_eq_true hxf.2
      have h2 : now - e.2.lastUsed ≤ maxAge := of_decide_eq_true hef.2
      exact absurd h1 (not_lt.2 h2)

theorem poolInv_shutdown (s : Service) (h : PoolInv s) (endOk : Nat → Bool) :
    PoolInv (shutdown s endOk) := by
  obtain ⟨hwf, hnd, hlt, hend, hdis⟩ := h
  obtain ⟨_, he, hp⟩ := shutdownFold endOk s.connections s
  have hpools : (shutdown s endOk).endedPools = s.endedPools ++ s.connections.poolsOf := by
    unfold shutdown Service.endedPools
    simp only [he]
    simp [ConnMap.poolsOf, List.map_map, Function.comp_def]
  have hpl : (shutdown s endOk).pools = s.pools := hp
  have hcn : (shutdown s endOk).connections = [] := rfl
  refine ⟨?_, ?_, ?_, ?_, ?_⟩
  · rw [hcn]
    exact List.nodup_nil
  · rw [hcn]
    exact List.nodup_nil
  · rw [hcn]
    intro p hpm
    exact absurd hpm (List.not_mem_nil p)
  · rw [hpools, List.nodup_append]
    exact ⟨hend, hnd, fun a ha hb => (hdis a ha).2 hb⟩
  · intro p hpm
    rw [hpools, List.mem_append] at hpm
    rw [hcn, hpl]
    refine ⟨?_, List.not_mem_nil p⟩
    rcases hpm with hpm | hpm
    · exact (hdis p hpm).1
    · exact hlt p hpm

theorem poolInv_step (s : Service) (h : PoolInv s) (op : Op) (hop : op.cleanClose = true) :
    PoolInv (step s op) := by
  cases op with
  | connect body env => exact poolInv_connect s h body env
  | query connectionId sql queryOk now => exact poolInv_query s h connectionId sql queryOk now
  | disconnect connectionId endOk =>
    have he : endOk = true := hop
    subst he
    exact poolInv_disconnect s h connectionId
  | cleanupTick now maxAge endOk => exact poolInv_cleanupTick s h now maxAge endOk
  | shutdown endOk => exact poolInv_shutdown s h endOk

theorem poolInv_run (ops : List Op) (s : Service) (h : PoolInv s)
    (hops : ∀ op ∈ ops, op.cleanClose = true) : PoolInv (run s ops) := by
  induction ops generalizing s with
  | nil => exact h
  | cons op ops ih =>
    exact ih (step s op) (poolInv_step s h op (hops op (List.mem_cons_self op ops)))
      (fun o ho => hops o (List.mem_cons_of_mem op ho))

/-- As long as no disconnect meets a failing close, `pool.end()` is invoked at most once
on each pool, whatever the outcome of the closes of the reaper and of the shutdown. -/
theorem pool_end_at_most_once_of_clean_disconnects (ops : List Op)
    (hops : ∀ op ∈ ops, op.cleanClose = true) (p : Nat) :
    (run Service.init ops).endCount p ≤ 1 :=
  endCount_le_one _ (poolInv_run ops Service.init poolInv_init hops).2.2.2.1 p

end PostgreSQLFYI
